import Mathlib

/-!
Verification development for the News-Engine acquisition pipeline.

The definitions below are shallow embeddings of the Python sources
`gdelt_fetcher.py` and `article_scraper.py`.  Pure computations (title
normalization, the dedup and time-window filter, backoff delays, query
expansion, the enhancement fallback) are translated directly.  Network
transfers and HTML parsing are represented by explicit oracle fields on
environment structures: each oracle stands for the value a given network
call or parser invocation returned, and the surrounding control flow is
translated from the source.  Machine time is modelled as integer seconds,
matching the second-granularity arithmetic of the source.
-/

namespace NewsEngine

/-- Python substring test `pat in hay`, over the character sequences. -/
def containsSub (hay pat : String) : Bool :=
  decide (pat.data <:+: hay.data)

/-- Python slicing `s[:n]`: the first `n` characters of `s`. -/
def strTake (n : Nat) (s : String) : String :=
  ⟨s.data.take n⟩

/-- Lowercasing per character, as Python str.lower for ASCII text. -/
def strLower (s : String) : String :=
  ⟨s.data.map Char.toLower⟩

/-- Python regex word character (ASCII): letter, digit or underscore.
    This is the complement of the character class matched by the regex
    \W used in `fetch_gdelt_simple`. -/
def isWordChar (c : Char) : Bool :=
  c.isAlphanum || c = '_'

/-- Collapse each maximal run of spaces to a single space. -/
def collapseSpaces : List Char → List Char
  | [] => []
  | [c] => [c]
  | a :: b :: rest =>
      if a = ' ' && b = ' ' then collapseSpaces (b :: rest)
      else a :: collapseSpaces (b :: rest)

/-- Remove leading and trailing spaces. -/
def stripSpaces (l : List Char) : List Char :=
  ((l.dropWhile (· = ' ')).reverse.dropWhile (· = ' ')).reverse

/-- Title normalization used for dedup in `fetch_gdelt_simple` (line 365):
    re.sub with the pattern matching runs of non-word characters replaced
    by one space, then lower, then strip.  Substituting each non-word
    character by a space and collapsing space runs is equivalent to
    substituting each maximal non-word run by one space, because a space
    is itself a non-word character. -/
def norm_title (t : String) : String :=
  ⟨stripSpaces ((collapseSpaces (t.data.map
      (fun c => if isWordChar c then c else ' '))).map Char.toLower)⟩

/-- Normalization as the specification claim words it: collapse runs of
    non-alphanumeric characters (so the underscore is collapsed too),
    lowercase, and trim edge whitespace.  This follows the words of the
    claim, for comparison against `norm_title` taken from the source. -/
def spec_norm_title (t : String) : String :=
  ⟨stripSpaces ((collapseSpaces (t.data.map
      (fun c => if c.isAlphanum then c else ' '))).map Char.toLower)⟩

/-! ## Feed entries and the dedup / time-window filter (gdelt_fetcher.py, lines 321-395) -/

/-- One raw feed entry, as consumed by the filter loop.  `publishedRaw`
    is the string field of the entry; `publishedParsed` is the parsed
    publish timestamp in epoch seconds (none when the feed library could
    not parse one).  `summary` stands for the visible text of the entry
    summary; the HTML stripping done by BeautifulSoup on it is not needed
    by any claim and is not modelled. -/
structure FeedEntry where
  title : String
  source : String
  link : String
  publishedRaw : String
  publishedParsed : Option Int
  summary : String
  deriving DecidableEq

/-- The accepted record appended to `articles` (lines 382-388). -/
structure ArticleRecord where
  title : String
  description : String
  source : String
  link : String
  published : String
  deriving DecidableEq

def secondsPerDay : Int := 86400

/-- Record construction from an accepted entry (lines 382-388). -/
def mkRecord (e : FeedEntry) : ArticleRecord :=
  { title := e.title
    description := if e.summary = "" then "No description" else e.summary
    source := e.source
    link := e.link
    published := e.publishedRaw }

/-- The filter loop of `fetch_gdelt_simple` (lines 334-392), with the
    seen-link set, seen-title set and accumulated articles threaded
    explicitly.  The master window bounds are
    now - (days+1) days and now + 1 day (lines 325-326). -/
def fetch_filter_go (now : Int) (days : Nat) (max_articles : Nat) :
    List FeedEntry → List String → List (String × String) →
    List ArticleRecord → List ArticleRecord
  | [], _, _, acc => acc
  | e :: rest, seen_ids, seen_titles, acc =>
    if e.publishedRaw = "" then
      fetch_filter_go now days max_articles rest seen_ids seen_titles acc
    else
      match e.publishedParsed with
      | none => fetch_filter_go now days max_articles rest seen_ids seen_titles acc
      | some t =>
        if t < now - ((days : Int) + 1) * secondsPerDay ∨ now + secondsPerDay < t then
          fetch_filter_go now days max_articles rest seen_ids seen_titles acc
        else if e.link ∈ seen_ids then
          fetch_filter_go now days max_articles rest seen_ids seen_titles acc
        else if (norm_title e.title, e.source) ∈ seen_titles then
          fetch_filter_go now days max_articles rest seen_ids seen_titles acc
        else
          let acc2 := acc ++ [mkRecord e]
          if max_articles ≤ acc2.length then acc2
          else fetch_filter_go now days max_articles rest
            (seen_ids ++ [e.link]) (seen_titles ++ [(norm_title e.title, e.source)]) acc2

/-- The dedup and time-window filter applied to the full entry stream
    (lines 321-395 of fetch_gdelt_simple). -/
def fetch_gdelt_filter (entries : List FeedEntry) (now : Int) (days : Nat)
    (max_articles : Nat) : List ArticleRecord :=
  fetch_filter_go now days max_articles entries [] [] []

/-! ## TorManager (gdelt_fetcher.py, lines 25-60)

The class state `_last_renewal` and `_is_cooldown` is mutated only inside
the body of `renew_identity`, which runs under the class-wide asyncio
lock; two concurrent calls therefore execute their bodies one after the
other, and are modelled as sequential applications of the state
transformer below. -/

namespace TorManager

structure State where
  last_renewal : Int
  is_cooldown : Bool
  deriving DecidableEq

/-- Result of one `renew_identity` call: the returned boolean, the state
    left behind, and whether an actual successful rotation occurred. -/
structure RenewOutcome where
  returned : Bool
  state : State
  rotated : Bool
  deriving DecidableEq

/-- Body of `TorManager.renew_identity` (lines 36-55), executed under the
    class lock.  `t_enter` is the value of time.time() read at entry,
    `t_done` the later time.time() read after a successful signal, and
    `signal` the success of the `renew_tor_identity` control call.  On the
    guard branch the state is returned unchanged and nothing is rotated;
    on a successful signal `last_renewal` is updated; in every completed
    body `is_cooldown` ends false. -/
def renew_identity (s : State) (t_enter t_done : Int) (signal : Bool) : RenewOutcome :=
  if t_enter - s.last_renewal < 30 then ⟨false, s, false⟩
  else if signal then ⟨true, ⟨t_done, false⟩, true⟩
  else ⟨false, ⟨s.last_renewal, false⟩, false⟩

end TorManager

/-! ## The retry loop of fetch_rss_async (gdelt_fetcher.py, lines 146-200) -/

/-- Outcome of one attempt of the inner HTTP GET: a 200 with parsed feed
    entries, a 429/503 rate limit, another non-200 status, or a raised
    network exception (the `except` branch of the loop). -/
inductive FetchResp where
  | ok (entries : List FeedEntry)
  | rateLimited
  | httpError
  | netError
  deriving DecidableEq

def max_retries : Nat := 3

/-- Backoff delay for a 429/503 at a given attempt, jitter term omitted
    (line 181): 10 * 2 ^ attempt. -/
def rate_limit_delay (attempt : Nat) : Nat := 10 * 2 ^ attempt

/-- Backoff delay for a network error at a given attempt, jitter term
    omitted (lines 149 and 195): base_delay 5 times 2 ^ attempt. -/
def net_error_delay (attempt : Nat) : Nat := 5 * 2 ^ attempt

/-- The loop `for attempt in range(max_retries + 1)` of fetch_rss_async,
    with `resp attempt` the outcome of the GET on that attempt.  Returns
    the list of backoff delays slept and the entry list produced.  The
    fuel argument counts the loop iterations left; the loop body either
    returns or continues to the next attempt. -/
def fetch_rss_go (resp : Nat → FetchResp) : Nat → Nat → List Nat × List FeedEntry
  | 0, _ => ([], [])
  | fuel + 1, attempt =>
    match resp attempt with
    | .ok es => ([], es)
    | .rateLimited =>
      if attempt < max_retries then
        let r := fetch_rss_go resp fuel (attempt + 1)
        (rate_limit_delay attempt :: r.1, r.2)
      else ([], [])
    | .httpError => ([], [])
    | .netError =>
      if attempt < max_retries then
        let r := fetch_rss_go resp fuel (attempt + 1)
        (net_error_delay attempt :: r.1, r.2)
      else ([], [])

/-- fetch_rss_async as a whole: run the retry loop from attempt 0. -/
def fetch_rss_async (resp : Nat → FetchResp) : List Nat × List FeedEntry :=
  fetch_rss_go resp (max_retries + 1) 0

/-! ## Query expansion and time slicing (gdelt_fetcher.py, lines 202-282)

The query list and the url matrix built by `fetch_resilient_sources`,
with `quote` standing for requests.utils.quote and `dateStr i` for
strftime applied to now minus i days.  The sector expansion branch is
taken with sector_context None here, as no claim concerns it. -/

def saturation_variations : List String :=
  ["", "news", "report", "breaking", "update", "latest",
   "analysis", "forecast", "trends", "market", "sector", "industry"]

/-- The query-variant construction (lines 206-224). -/
def build_queries (quote : String → String) (keyword : String)
    (saturation_mode : Bool) : List String :=
  let base_query := quote keyword
  if saturation_mode then
    saturation_variations.flatMap (fun var =>
      [if var ≠ "" then base_query ++ "%20" ++ var else base_query,
       if var ≠ "" then "\"" ++ keyword ++ "\"" ++ "%20" ++ var
       else "\"" ++ keyword ++ "\""])
  else
    [base_query, "\"" ++ keyword ++ "\"",
     base_query ++ "%20news", base_query ++ "%20report"]

/-- One fully-formed search URL, kept as its constituent parameters: the
    day index, the logical slot (the dummy parameter u), the query, the
    region, and the after/before date bounds of the time filter. -/
structure SearchTask where
  day : Nat
  slot : Nat
  query : String
  region : String
  startStr : String
  endStr : String
  deriving DecidableEq

/-- First-occurrence deduplication, as dict.fromkeys does (line 282). -/
def dedupFirst {α : Type} [DecidableEq α] : List α → List α → List α
  | [], _ => []
  | a :: rest, seen =>
    if a ∈ seen then dedupFirst rest seen
    else a :: dedupFirst rest (a :: seen)

/-- The url matrix loop (lines 253-282): for each day i, six logical
    slots, each crossing every query with every region; every slot of a
    day carries the same day-long after/before bounds, the slot index
    entering only as the dummy parameter.  The list is deduplicated as
    line 282 does. -/
def build_search_tasks (days : Nat) (queries regions : List String)
    (dateStr : Nat → String) : List SearchTask :=
  dedupFirst
    ((List.range days).flatMap (fun i =>
      (List.range 6).flatMap (fun slot =>
        queries.flatMap (fun q =>
          regions.map (fun r =>
            ⟨i, slot, q, r, dateStr (i + 1), dateStr i⟩)))))
    []

def default_regions : List String :=
  ["IN:en", "US:en", "GB:en", "AU:en", "CA:en", "SG:en"]

/-- The search-task construction of fetch_gdelt_simple together with the
    default-region rule (lines 111-112). -/
def search_tasks (quote : String → String) (keyword : String)
    (target_regions : List String) (days : Nat) (dateStr : Nat → String)
    (saturation_mode : Bool) : List SearchTask :=
  let regions := if target_regions.isEmpty then default_regions else target_regions
  build_search_tasks days (build_queries quote keyword saturation_mode) regions dateStr

/-- The distinct slot indices generated for day i. -/
def slots_of_day (ts : List SearchTask) (i : Nat) : List Nat :=
  dedupFirst ((ts.filter (fun t => t.day = i)).map (fun t => t.slot)) []

/-! ## A document tree for the scraper (article_scraper.py)

A parsed HTML page, as far as the claims need it: elements carry a tag
name, the joined class/id attribute text, and children; text nodes carry
their string.  `getText` is BeautifulSoup get_text() with the default
empty separator, which includes the contents of script and style
elements because those are ordinary strings in the tree. -/

inductive Node where
  | text (s : String)
  | elem (tag : String) (cls : String) (children : List Node)

mutual

def Node.getText : Node → String
  | .text s => s
  | .elem _ _ cs => nodesText cs

def nodesText : List Node → String
  | [] => ""
  | n :: ns => Node.getText n ++ nodesText ns

end

/-- The noise tags decomposed by the cleaning pass (lines 186-187). -/
def noiseTags : List String :=
  ["script", "style", "nav", "header", "footer", "aside", "form", "iframe",
   "button", "input", "textarea", "select", "option", "ads", "noscript",
   "svg", "figure", "figcaption"]

/-- The class/id noise vocabulary of the cleaning pass (line 191). -/
def badPatterns : List String :=
  ["ad-", "ads", "promo", "subscribe", "popup", "cookie", "menu",
   "sidebar", "social", "share", "comment", "newsletter", "related"]

mutual

/-- The cleaning pass of the extractor (lines 186-193): drop every
    element whose tag is a noise tag or whose class/id text matches the
    noise vocabulary (case-insensitively), keep everything else. -/
def Node.clean : Node → Option Node
  | .text s => some (.text s)
  | .elem tag cls cs =>
    if tag ∈ noiseTags ∨ badPatterns.any (fun p => containsSub (strLower cls) p) then none
    else some (.elem tag cls (cleanList cs))

def cleanList : List Node → List Node
  | [] => []
  | n :: ns =>
    match Node.clean n with
    | none => cleanList ns
    | some m => m :: cleanList ns

end

/-- The subscription-gate phrase vocabulary (lines 170-174). -/
def paywall_keywords : List String :=
  ["subscription required", "subscribe now", "already a subscriber",
   "log in to continue", "read the full article", "premium content",
   "register to continue", "you have reached your limit"]

/-- The paywall scan of the extractor (lines 176-181): some phrase occurs
    in the first 1000 characters of the given lowercased text. -/
def paywall_scan (text_lower : String) : Bool :=
  paywall_keywords.any (fun k => containsSub (strTake 1000 text_lower) k)

/-- Paywall detection as claim C9 words it: the scan is over the cleaned
    visible text, after non-content markup removal.  Written from the
    words of the claim, for comparison with the source order, where the
    scan text is taken before the cleaning pass runs. -/
def spec_paywall_scan (doc : Node) : Bool :=
  let cleanedText := strLower
    (match Node.clean doc with
     | none => ""
     | some d => d.getText)
  paywall_keywords.any (fun k => containsSub (strTake 1000 cleanedText) k)

/-! ## decode_google_news_url (article_scraper.py, lines 42-111) -/

/-- Oracles for the three effectful steps of the decoder.  `fetch` is the
    initial GET: on success it yields the final URL after redirects and
    the parsed page; an error value stands for a raised exception.
    `dataP` is the lookup of the c-wiz element carrying the data-p
    attribute.  `exchange` covers steps 3 to 5: building the payload from
    the token, the POST to the batchexecute endpoint, and digging the
    real URL out of the reply; an error value stands for an exception
    anywhere in those steps. -/
structure DecodeEnv where
  fetch : String → Except String (String × Node)
  dataP : Node → Option String
  exchange : String → Except String String

/-- decode_google_news_url: the whole body runs in one try block whose
    except handler returns the original url; the token-missing branch
    returns the redirect destination when it already left the
    news.google.com domain, and the original url otherwise
    (lines 68-72). -/
def decode_google_news_url (env : DecodeEnv) (url : String) : String :=
  match env.fetch url with
  | .error _ => url
  | .ok (finalUrl, page) =>
    match env.dataP page with
    | none =>
      if containsSub finalUrl "news.google.com" = false then finalUrl else url
    | some token =>
      match env.exchange token with
      | .error _ => url
      | .ok realUrl => realUrl

/-- Step 1 of scrape_article_content_async (lines 126-129): the decoder
    runs only on links in the news.google.com domain; other links pass
    through unchanged. -/
def resolve_link (env : DecodeEnv) (url : String) : String :=
  if containsSub url "news.google.com" then decode_google_news_url env url else url

/-! ## scrape_article_content_async (article_scraper.py, lines 115-328) -/

/-- The HTTP response of the content GET: status code and parsed page. -/
structure HttpResp where
  status : Nat
  doc : Node

/-- The extractor result triple. -/
structure ScrapeResult where
  full_text : String
  summary : String
  is_paywall : Bool
  deriving DecidableEq

/-- Replace every run of three or more newlines by exactly two, as the
    whitespace cleanup regex does (line 250).  The counter holds the
    number of consecutive newlines already emitted. -/
def squeezeNl : Nat → List Char → List Char
  | _, [] => []
  | k, c :: rest =>
    if c = '\n' then
      if k < 2 then c :: squeezeNl (k + 1) rest else squeezeNl k rest
    else c :: squeezeNl 0 rest

/-- Environment of one extraction: the decoder oracles, the content GET
    (an error value standing for a raised exception), and the two
    outcomes of the body-location heuristic on the cleaned page: the
    paragraph chunks collected from the chosen container
    (lines 195-236) and the whole-page visible text used by the
    short-text failsafe (line 244).  The heuristic itself is pure tree
    traversal that no claim constrains, so its outcome is an oracle
    here; the paywall logic and all control flow around it are concrete. -/
structure ScrapeEnv where
  dec : DecodeEnv
  fetch : String → Except String HttpResp
  extract : Node → List String
  allText : Node → String

/-- scrape_article_content_async.  The use_tor branches only wait for or
    trigger rotation and do not alter the returned value, so they are
    not represented; the oversized-header requests fallback
    (lines 268-325) is entered only from a raised exception, which the
    error case of `fetch` covers by yielding None as the final handler
    does.  The paywall scan runs on the page text taken before the
    cleaning pass, exactly as in the source (line 176 precedes
    line 186). -/
def scrape_article_content_async (env : ScrapeEnv) (url : String) : Option ScrapeResult :=
  let url1 := resolve_link env.dec url
  match env.fetch url1 with
  | .error _ => none
  | .ok resp =>
    if resp.status ≠ 200 then
      if resp.status = 401 ∨ resp.status = 403 then some ⟨"", "", true⟩ else none
    else
      let text_lower := strLower resp.doc.getText
      let is_paywall := paywall_scan text_lower
      let paragraphs := env.extract resp.doc
      let ft0 := String.intercalate "\n\n" paragraphs
      let all_text := env.allText resp.doc
      let ft1 :=
        if ft0.length < 200 ∧ 200 < all_text.length ∧ all_text.length < 50000 then
          all_text
        else ft0
      let full_text : String := ⟨squeezeNl 0 ft1.data⟩
      let summary :=
        if 0 < paragraphs.length then String.intercalate " " (paragraphs.take 3)
        else if 400 < full_text.length then strTake 400 full_text ++ "..."
        else full_text
      let is_paywall2 :=
        if full_text.length < 500 ∧
            (containsSub text_lower "subscribe" ∨ containsSub text_lower "login" ∨
             containsSub text_lower "register") then
          true
        else is_paywall
      some ⟨full_text, summary, is_paywall2⟩

/-! ## enhance_articles_async (article_scraper.py, lines 331-414) -/

/-- One article record after the retrieval phase. -/
structure EnhancedRecord where
  title : String
  description : String
  source : String
  link : String
  published : String
  full_text : String
  summary : String
  is_paywall : Bool
  deriving DecidableEq

/-- Python slicing `articles[:limit] if limit else articles`: both None
    and 0 are falsy and leave the list whole. -/
def slice_limit (articles : List ArticleRecord) (limit : Option Nat) : List ArticleRecord :=
  match limit with
  | none => articles
  | some n => if n = 0 then articles else articles.take n

/-- The link deduplication of enhance_articles_async (lines 337-343):
    keep an article when its link is nonempty and not seen yet. -/
def dedup_by_link : List ArticleRecord → List String → List ArticleRecord
  | [], _ => []
  | a :: rest, seen =>
    if a.link ≠ "" ∧ a.link ∉ seen then a :: dedup_by_link rest (seen ++ [a.link])
    else dedup_by_link rest seen

/-- The fallback full text built at line 408 from the feed description. -/
def fallback_full_text (description : String) : String :=
  "⚠️ Could not scrape full content automatically.\n\n**Summary from Source:**\n" ++ description

/-- The per-article update of enhance_articles_async (lines 397-412):
    keep the scraped triple when the result exists and its full_text
    exceeds 100 characters, otherwise overwrite with the fallback
    message, the feed description as summary, and is_paywall False. -/
def enhance_one (scr : String → Option ScrapeResult) (a : ArticleRecord) : EnhancedRecord :=
  match scr a.link with
  | some r =>
    if 100 < r.full_text.length then
      ⟨a.title, a.description, a.source, a.link, a.published,
       r.full_text, r.summary, r.is_paywall⟩
    else
      ⟨a.title, a.description, a.source, a.link, a.published,
       fallback_full_text a.description, a.description, false⟩
  | none =>
    ⟨a.title, a.description, a.source, a.link, a.published,
     fallback_full_text a.description, a.description, false⟩

/-- enhance_articles_async: slice by the limit, deduplicate by link, and
    update every surviving target with its scrape outcome, `scr` being
    the per-link result of scrape_article_content_async. -/
def enhance_articles_async (scr : String → Option ScrapeResult)
    (articles : List ArticleRecord) (limit : Option Nat) : List EnhancedRecord :=
  (dedup_by_link (slice_limit articles limit) []).map (enhance_one scr)

/-! ## Helper lemmas about the filter loop -/

/-- Every record the filter loop returns was already accumulated or stems
    from an entry of the remaining stream whose parsed timestamp lies in
    the master window. -/
theorem fetch_filter_go_sound (now : Int) (days max_articles : Nat)
    (l : List FeedEntry) :
    ∀ (si : List String) (st : List (String × String)) (acc : List ArticleRecord)
      (a : ArticleRecord),
      a ∈ fetch_filter_go now days max_articles l si st acc →
      a ∈ acc ∨ ∃ e ∈ l, ∃ t : Int, e.publishedParsed = some t ∧
        now - ((days : Int) + 1) * secondsPerDay ≤ t ∧ t ≤ now + secondsPerDay ∧
        a = mkRecord e := by
  induction l with
  | nil =>
    intro si st acc a ha
    simp only [fetch_filter_go] at ha
    exact Or.inl ha
  | cons e rest ih =>
    intro si st acc a ha
    have weaken :
        a ∈ acc ∨ (∃ e2 ∈ rest, ∃ t : Int, e2.publishedParsed = some t ∧
          now - ((days : Int) + 1) * secondsPerDay ≤ t ∧ t ≤ now + secondsPerDay ∧
          a = mkRecord e2) →
        a ∈ acc ∨ ∃ e2 ∈ e :: rest, ∃ t : Int, e2.publishedParsed = some t ∧
          now - ((days : Int) + 1) * secondsPerDay ≤ t ∧ t ≤ now + secondsPerDay ∧
          a = mkRecord e2 := by
      rintro (h | ⟨e2, he2, t, h4⟩)
      · exact Or.inl h
      · exact Or.inr ⟨e2, List.mem_cons_of_mem _ he2, t, h4⟩
    simp only [fetch_filter_go] at ha
    by_cases hraw : e.publishedRaw = ""
    · rw [if_pos hraw] at ha
      exact weaken (ih _ _ _ _ ha)
    rw [if_neg hraw] at ha
    cases hp : e.publishedParsed with
    | none =>
      rw [hp] at ha
      exact weaken (ih _ _ _ _ ha)
    | some t =>
      rw [hp] at ha
      simp only [] at ha
      by_cases hw : t < now - ((days : Int) + 1) * secondsPerDay ∨ now + secondsPerDay < t
      · rw [if_pos hw] at ha
        exact weaken (ih _ _ _ _ ha)
      rw [if_neg hw] at ha
      push_neg at hw
      by_cases hl : e.link ∈ si
      · rw [if_pos hl] at ha
        exact weaken (ih _ _ _ _ ha)
      rw [if_neg hl] at ha
      by_cases hk : (norm_title e.title, e.source) ∈ st
      · rw [if_pos hk] at ha
        exact weaken (ih _ _ _ _ ha)
      rw [if_neg hk] at ha
      have hacc : a ∈ acc ++ [mkRecord e] →
          a ∈ acc ∨ ∃ e2 ∈ e :: rest, ∃ t2 : Int, e2.publishedParsed = some t2 ∧
            now - ((days : Int) + 1) * secondsPerDay ≤ t2 ∧ t2 ≤ now + secondsPerDay ∧
            a = mkRecord e2 := by
        intro h
        rcases List.mem_append.1 h with h | h
        · exact Or.inl h
        · have he : a = mkRecord e := by simpa using h
          exact Or.inr ⟨e, List.mem_cons_self _ _, t, hp, hw.1, hw.2, he⟩
      by_cases hm : max_articles ≤ (acc ++ [mkRecord e]).length
      · rw [if_pos hm] at ha
        exact hacc ha
      · rw [if_neg hm] at ha
        rcases ih _ _ _ _ ha with h | ⟨e2, he2, t2, h4⟩
        · exact hacc h
        · exact Or.inr ⟨e2, List.mem_cons_of_mem _ he2, t2, h4⟩

/-- The filter loop never grows the output beyond the cap, provided it
    starts strictly under the cap. -/
theorem fetch_filter_go_length (now : Int) (days max_articles : Nat)
    (l : List FeedEntry) :
    ∀ (si : List String) (st : List (String × String)) (acc : List ArticleRecord),
      acc.length < max_articles →
      (fetch_filter_go now days max_articles l si st acc).length ≤ max_articles := by
  induction l with
  | nil =>
    intro si st acc h
    simp only [fetch_filter_go]
    omega
  | cons e rest ih =>
    intro si st acc h
    simp only [fetch_filter_go]
    split
    · exact ih _ _ _ h
    split
    · exact ih _ _ _ h
    split
    · exact ih _ _ _ h
    split
    · exact ih _ _ _ h
    split
    · exact ih _ _ _ h
    split
    · rename_i hm
      simp only [List.length_append, List.length_cons, List.length_nil] at hm ⊢
      omega
    · apply ih
      rename_i hm
      simp only [List.length_append, List.length_cons, List.length_nil] at hm ⊢
      omega

/-- The accumulated output is only ever extended by the filter loop. -/
theorem fetch_filter_go_acc_prefix (now : Int) (days max_articles : Nat)
    (l : List FeedEntry) :
    ∀ (si : List String) (st : List (String × String)) (acc : List ArticleRecord),
      acc <+: fetch_filter_go now days max_articles l si st acc := by
  induction l with
  | nil =>
    intro si st acc
    simp [fetch_filter_go]
  | cons e rest ih =>
    intro si st acc
    simp only [fetch_filter_go]
    split
    · exact ih _ _ _
    split
    · exact ih _ _ _
    split
    · exact ih _ _ _
    split
    · exact ih _ _ _
    split
    · exact ih _ _ _
    split
    · exact List.prefix_append _ _
    · exact (List.prefix_append _ _).trans (ih _ _ _)

/-- Appending further entries to the stream only extends the output. -/
theorem fetch_filter_go_extends (now : Int) (days max_articles : Nat)
    (l2 : List FeedEntry) (l1 : List FeedEntry) :
    ∀ (si : List String) (st : List (String × String)) (acc : List ArticleRecord),
      fetch_filter_go now days max_articles l1 si st acc <+:
        fetch_filter_go now days max_articles (l1 ++ l2) si st acc := by
  induction l1 with
  | nil =>
    intro si st acc
    simp only [List.nil_append, fetch_filter_go]
    exact fetch_filter_go_acc_prefix now days max_articles l2 si st acc
  | cons e rest ih =>
    intro si st acc
    simp only [List.cons_append, fetch_filter_go]
    by_cases hraw : e.publishedRaw = ""
    · simp only [if_pos hraw]
      exact ih _ _ _
    simp only [if_neg hraw]
    cases hp : e.publishedParsed with
    | none => exact ih _ _ _
    | some t =>
      simp only []
      by_cases hw : t < now - ((days : Int) + 1) * secondsPerDay ∨ now + secondsPerDay < t
      · simp only [if_pos hw]
        exact ih _ _ _
      simp only [if_neg hw]
      by_cases hl : e.link ∈ si
      · simp only [if_pos hl]
        exact ih _ _ _
      simp only [if_neg hl]
      by_cases hk : (norm_title e.title, e.source) ∈ st
      · simp only [if_pos hk]
        exact ih _ _ _
      simp only [if_neg hk]
      by_cases hm : max_articles ≤ (acc ++ [mkRecord e]).length
      · simp only [if_pos hm]
        exact List.prefix_rfl
      · simp only [if_neg hm]
        exact ih _ _ _

/-- Once the cap is reached the loop ignores all further entries. -/
theorem fetch_filter_go_stop (now : Int) (days max_articles : Nat)
    (l2 : List FeedEntry) (l1 : List FeedEntry) :
    ∀ (si : List String) (st : List (String × String)) (acc : List ArticleRecord),
      acc.length < max_articles →
      max_articles ≤ (fetch_filter_go now days max_articles l1 si st acc).length →
      fetch_filter_go now days max_articles (l1 ++ l2) si st acc =
        fetch_filter_go now days max_articles l1 si st acc := by
  induction l1 with
  | nil =>
    intro si st acc h1 h2
    simp only [fetch_filter_go] at h2
    exact absurd h2 (by omega)
  | cons e rest ih =>
    intro si st acc h1 h2
    simp only [List.cons_append, fetch_filter_go] at h2 ⊢
    by_cases hraw : e.publishedRaw = ""
    · simp only [if_pos hraw] at h2 ⊢
      exact ih _ _ _ h1 h2
    simp only [if_neg hraw] at h2 ⊢
    cases hp : e.publishedParsed with
    | none =>
      rw [hp] at h2
      exact ih _ _ _ h1 h2
    | some t =>
      rw [hp] at h2
      simp only [] at h2 ⊢
      by_cases hw : t < now - ((days : Int) + 1) * secondsPerDay ∨ now + secondsPerDay < t
      · simp only [if_pos hw] at h2 ⊢
        exact ih _ _ _ h1 h2
      simp only [if_neg hw] at h2 ⊢
      by_cases hl : e.link ∈ si
      · simp only [if_pos hl] at h2 ⊢
        exact ih _ _ _ h1 h2
      simp only [if_neg hl] at h2 ⊢
      by_cases hk : (norm_title e.title, e.source) ∈ st
      · simp only [if_pos hk] at h2 ⊢
        exact ih _ _ _ h1 h2
      simp only [if_neg hk] at h2 ⊢
      by_cases hm : max_articles ≤ (acc ++ [mkRecord e]).length
      · simp only [if_pos hm]
      · simp only [if_neg hm] at h2 ⊢
        apply ih _ _ _ _ h2
        simp only [List.length_append, List.length_cons, List.length_nil] at hm ⊢
        omega

/-- A single entry with a parseable timestamp inside the window and a
    nonempty raw date is accepted. -/
theorem fetch_filter_single_accept (e : FeedEntry) (now t : Int)
    (days max_articles : Nat)
    (hraw : e.publishedRaw ≠ "") (hp : e.publishedParsed = some t)
    (hw : now - ((days : Int) + 1) * secondsPerDay ≤ t ∧ t ≤ now + secondsPerDay) :
    fetch_gdelt_filter [e] now days max_articles = [mkRecord e] := by
  have hw2 : ¬ (t < now - ((days : Int) + 1) * secondsPerDay ∨ now + secondsPerDay < t) := by
    omega
  simp [fetch_gdelt_filter, fetch_filter_go, hraw, hp, hw2, ite_self]

/-- A single entry whose parsed timestamp falls outside the window is
    rejected. -/
theorem fetch_filter_single_reject (e : FeedEntry) (now t : Int)
    (days max_articles : Nat) (hp : e.publishedParsed = some t)
    (hw : t < now - ((days : Int) + 1) * secondsPerDay ∨ now + secondsPerDay < t) :
    fetch_gdelt_filter [e] now days max_articles = [] := by
  by_cases hraw : e.publishedRaw = "" <;>
    simp [fetch_gdelt_filter, fetch_filter_go, hraw, hp, hw]

/-! ## Theorems -/

/-- C1 counterexample: the claim defines normalization as collapsing
    non-alphanumeric runs, under which the two titles below coincide, so
    the claim calls the two entries duplicates; the filter nevertheless
    accepts both, because the source regex collapses non-word runs and
    keeps the underscore, a word character. -/
theorem C1_counterexample :
    spec_norm_title "a_b" = spec_norm_title "a b" ∧
    norm_title "a_b" ≠ norm_title "a b" ∧
    (fetch_gdelt_filter
      [⟨"a_b", "S", "l1", "d", some 0, ""⟩,
       ⟨"a b", "S", "l2", "d", some 0, ""⟩] 0 7 10).length = 2 := by
  decide

/-- C1 (amended): for two well-formed in-window entries and a cap of at
    least two, the filter accepts exactly one record precisely when the
    entries share an exact link or share a (normalizedTitle, source)
    pair, where normalization lowercases and collapses runs of non-word
    characters (characters other than letters, digits and the
    underscore) and trims the ends; in particular the same entry twice
    and the Acme Corp pair each yield exactly one accepted record. -/
theorem C1_dedup_iff (e1 e2 : FeedEntry) (now : Int) (days max_articles : Nat)
    (t1 t2 : Int)
    (h1 : e1.publishedRaw ≠ "") (h2 : e2.publishedRaw ≠ "")
    (hp1 : e1.publishedParsed = some t1) (hp2 : e2.publishedParsed = some t2)
    (hw1 : now - ((days : Int) + 1) * secondsPerDay ≤ t1 ∧ t1 ≤ now + secondsPerDay)
    (hw2 : now - ((days : Int) + 1) * secondsPerDay ≤ t2 ∧ t2 ≤ now + secondsPerDay)
    (hm : 2 ≤ max_articles) :
    (fetch_gdelt_filter [e1, e2] now days max_articles).length = 1 ↔
      (e2.link = e1.link ∨
        (norm_title e2.title = norm_title e1.title ∧ e2.source = e1.source)) := by
  have hA : ¬ (t1 < now - ((days : Int) + 1) * secondsPerDay ∨ now + secondsPerDay < t1) := by
    omega
  have hB : ¬ (t2 < now - ((days : Int) + 1) * secondsPerDay ∨ now + secondsPerDay < t2) := by
    omega
  have hm1 : ¬ max_articles ≤ 1 := by omega
  by_cases hlink : e2.link = e1.link
  · have heval : fetch_gdelt_filter [e1, e2] now days max_articles = [mkRecord e1] := by
      simp [fetch_gdelt_filter, fetch_filter_go, h1, h2, hp1, hp2, hA, hB, hm1, hlink]
    rw [heval]
    simp [hlink]
  · by_cases hkey : norm_title e2.title = norm_title e1.title ∧ e2.source = e1.source
    · have heval : fetch_gdelt_filter [e1, e2] now days max_articles = [mkRecord e1] := by
        simp [fetch_gdelt_filter, fetch_filter_go, h1, h2, hp1, hp2, hA, hB, hm1,
          hlink, hkey.1, hkey.2]
      rw [heval]
      simp [hkey.1, hkey.2]
    · have heval : fetch_gdelt_filter [e1, e2] now days max_articles =
          [mkRecord e1, mkRecord e2] := by
        simp [fetch_gdelt_filter, fetch_filter_go, h1, h2, hp1, hp2, hA, hB, hm1,
          hlink, hkey, ite_self]
      rw [heval]
      simp [hlink, hkey]

/-- Witness for C1: the Acme Corp pair collapses to one record, and the
    identical entry fed twice collapses to one record. -/
theorem C1_dedup_iff_witness :
    (fetch_gdelt_filter
      [⟨"Acme Corp!", "SourceA", "a", "d", some 0, ""⟩,
       ⟨"acme corp", "SourceA", "b", "d", some 0, ""⟩] 0 7 10).length = 1 ∧
    (fetch_gdelt_filter
      [⟨"Same Title", "S", "x", "d", some 0, ""⟩,
       ⟨"Same Title", "S", "x", "d", some 0, ""⟩] 0 7 10).length = 1 :=
  ⟨(C1_dedup_iff ⟨"Acme Corp!", "SourceA", "a", "d", some 0, ""⟩
      ⟨"acme corp", "SourceA", "b", "d", some 0, ""⟩ 0 7 10 0 0
      (by decide) (by decide) rfl rfl (by decide) (by decide) (by decide)).mpr
      (Or.inr ⟨by decide, rfl⟩),
   (C1_dedup_iff ⟨"Same Title", "S", "x", "d", some 0, ""⟩
      ⟨"Same Title", "S", "x", "d", some 0, ""⟩ 0 7 10 0 0
      (by decide) (by decide) rfl rfl (by decide) (by decide) (by decide)).mpr
      (Or.inl rfl)⟩

/-- C2: every accepted record stems from an entry whose parsed publish
    timestamp lies in the closed window from now - (days+1) days to
    now + 1 day; an entry with no parseable publish timestamp is
    rejected; and with days = 7 an entry published exactly
    now - 8 days - 1 second is rejected while one published
    now - 7 days + 1 second is accepted. -/
theorem C2_time_window :
    (∀ (entries : List FeedEntry) (now : Int) (days max_articles : Nat),
      ∀ a ∈ fetch_gdelt_filter entries now days max_articles,
        ∃ e ∈ entries, ∃ t : Int, e.publishedParsed = some t ∧
          now - ((days : Int) + 1) * secondsPerDay ≤ t ∧ t ≤ now + secondsPerDay ∧
          a = mkRecord e) ∧
    (∀ (e : FeedEntry) (now : Int) (days max_articles : Nat),
      e.publishedParsed = none → fetch_gdelt_filter [e] now days max_articles = []) ∧
    (∀ (e : FeedEntry) (now : Int) (max_articles : Nat) (t : Int),
      1 ≤ max_articles → e.publishedRaw ≠ "" → e.publishedParsed = some t →
      (t = now - 8 * secondsPerDay - 1 →
        fetch_gdelt_filter [e] now 7 max_articles = []) ∧
      (t = now - 7 * secondsPerDay + 1 →
        fetch_gdelt_filter [e] now 7 max_articles = [mkRecord e])) := by
  refine ⟨?_, ?_, ?_⟩
  · intro entries now days max_articles a ha
    rcases fetch_filter_go_sound now days max_articles entries [] [] [] a ha with h | h
    · simp at h
    · exact h
  · intro e now days max_articles hp
    by_cases hraw : e.publishedRaw = "" <;>
      simp [fetch_gdelt_filter, fetch_filter_go, hraw, hp]
  · intro e now max_articles t _ hraw hp
    constructor
    · intro ht
      apply fetch_filter_single_reject e now t 7 max_articles hp
      left
      subst ht
      simp only [secondsPerDay]
      push_cast
      omega
    · intro ht
      apply fetch_filter_single_accept e now t 7 max_articles hraw hp
      subst ht
      constructor <;> (simp only [secondsPerDay]; push_cast; omega)

/-- Witness for C2: the two boundary instants at days = 7 around now = 0,
    and an entry without a parseable timestamp. -/
theorem C2_time_window_witness :
    fetch_gdelt_filter [⟨"T", "S", "L", "d", some (-691201), ""⟩] 0 7 5 = [] ∧
    fetch_gdelt_filter [⟨"T", "S", "L", "d", some (-604799), ""⟩] 0 7 5 =
      [mkRecord ⟨"T", "S", "L", "d", some (-604799), ""⟩] ∧
    fetch_gdelt_filter [⟨"T", "S", "L", "d", none, ""⟩] 0 7 5 = [] :=
  ⟨(C2_time_window.2.2 ⟨"T", "S", "L", "d", some (-691201), ""⟩ 0 5 (-691201)
      (by decide) (by decide) rfl).1 (by decide),
   (C2_time_window.2.2 ⟨"T", "S", "L", "d", some (-604799), ""⟩ 0 5 (-604799)
      (by decide) (by decide) rfl).2 (by decide),
   C2_time_window.2.1 ⟨"T", "S", "L", "d", none, ""⟩ 0 7 5 rfl⟩

/-- C7 counterexample: with max_articles 0 the cap check runs only after
    an append, so one record is accepted, exceeding the configured
    maximum. -/
theorem C7_counterexample :
    (fetch_gdelt_filter [⟨"T", "S", "L", "d", some 0, ""⟩] 0 7 0).length = 1 := by
  decide

/-- C7 (amended): for a maximum of at least one, the number of accepted
    records never exceeds the maximum; already-accepted records are never
    discarded when further entries are processed; and once the maximum is
    reached, appending further entries leaves the output unchanged. -/
theorem C7_max_articles_cap (entries extra : List FeedEntry) (now : Int)
    (days max_articles : Nat) (h : 1 ≤ max_articles) :
    (fetch_gdelt_filter entries now days max_articles).length ≤ max_articles ∧
    fetch_gdelt_filter entries now days max_articles <+:
      fetch_gdelt_filter (entries ++ extra) now days max_articles ∧
    (max_articles ≤ (fetch_gdelt_filter entries now days max_articles).length →
      fetch_gdelt_filter (entries ++ extra) now days max_articles =
        fetch_gdelt_filter entries now days max_articles) :=
  ⟨fetch_filter_go_length now days max_articles entries [] [] [] (by simpa using h),
   fetch_filter_go_extends now days max_articles extra entries [] [] [],
   fun h2 => fetch_filter_go_stop now days max_articles extra entries [] [] []
     (by simpa using h) h2⟩

/-- Witness for C7 at a concrete cap of one: the first entry fills the
    cap and a second entry leaves the output unchanged. -/
theorem C7_max_articles_cap_witness :
    (fetch_gdelt_filter [⟨"T", "S", "L", "d", some 0, ""⟩] 0 7 1).length ≤ 1 ∧
    fetch_gdelt_filter
      ([⟨"T", "S", "L", "d", some 0, ""⟩] ++ [⟨"U", "S", "M", "d", some 0, ""⟩]) 0 7 1 =
      fetch_gdelt_filter [⟨"T", "S", "L", "d", some 0, ""⟩] 0 7 1 :=
  ⟨(C7_max_articles_cap [⟨"T", "S", "L", "d", some 0, ""⟩]
      [⟨"U", "S", "M", "d", some 0, ""⟩] 0 7 1 (by decide)).1,
   (C7_max_articles_cap [⟨"T", "S", "L", "d", some 0, ""⟩]
      [⟨"U", "S", "M", "d", some 0, ""⟩] 0 7 1 (by decide)).2.2 (by decide)⟩

/-- C3: renew_identity returns False without performing a rotation
    whenever less than 30 seconds have elapsed since the last successful
    rotation, and because the body runs under the class lock, two
    concurrent calls serialize; when the first rotates successfully and
    the second enters within the minimum interval, exactly one actual
    rotation occurs: the first call rotates and returns True, the second
    performs no rotation and returns False. -/
theorem C3_rotation_rate_limit_and_mutex
    (s : TorManager.State) (t1e t1d t2e t2d : Int) (sig2 : Bool)
    (hfirst : 30 ≤ t1e - s.last_renewal)
    (hwithin : t2e - t1d < 30) :
    (∀ s0 te td sg, te - s0.last_renewal < 30 →
      TorManager.renew_identity s0 te td sg = ⟨false, s0, false⟩) ∧
    (TorManager.renew_identity s t1e t1d true).returned = true ∧
    (TorManager.renew_identity s t1e t1d true).rotated = true ∧
    (TorManager.renew_identity
      (TorManager.renew_identity s t1e t1d true).state t2e t2d sig2).returned = false ∧
    (TorManager.renew_identity
      (TorManager.renew_identity s t1e t1d true).state t2e t2d sig2).rotated = false := by
  have h1 : ¬ (t1e - s.last_renewal < 30) := by omega
  refine ⟨?_, ?_⟩
  · intro s0 te td sg h
    simp [TorManager.renew_identity, h]
  · simp [TorManager.renew_identity, h1, hwithin]

/-- Witness for C3 at a concrete state and concrete times. -/
theorem C3_rotation_rate_limit_and_mutex_witness :
    (TorManager.renew_identity ⟨0, false⟩ 100 120 true).rotated = true ∧
    (TorManager.renew_identity
      (TorManager.renew_identity ⟨0, false⟩ 100 120 true).state 121 125 true).rotated = false :=
  ⟨(C3_rotation_rate_limit_and_mutex ⟨0, false⟩ 100 120 121 125 true
      (by decide) (by decide)).2.2.1,
   (C3_rotation_rate_limit_and_mutex ⟨0, false⟩ 100 120 121 125 true
      (by decide) (by decide)).2.2.2.2⟩

/-- C4: for a search task whose attempts are all answered 429/503, the
    computed backoff delay (jitter ignored) grows strictly on each
    successive attempt, the concrete delays being 10, 20, 40 for the
    three retries allowed by the cap, and after the cap the loop yields
    the empty entry list rather than an exception. -/
theorem C4_backoff_monotone_and_empty (resp : Nat → FetchResp)
    (h : ∀ a, a ≤ max_retries → resp a = .rateLimited) :
    (∀ a b : Nat, a < b → rate_limit_delay a < rate_limit_delay b) ∧
    fetch_rss_async resp = ([10, 20, 40], []) ∧
    List.Chain' (· < ·) (fetch_rss_async resp).1 := by
  have hmono : ∀ a b : Nat, a < b → rate_limit_delay a < rate_limit_delay b := by
    intro a b hab
    have h2 : (2 : Nat) ^ a < 2 ^ b := Nat.pow_lt_pow_right (by norm_num) hab
    simp only [rate_limit_delay]
    omega
  have h0 := h 0 (by decide)
  have h1 := h 1 (by decide)
  have h2 := h 2 (by decide)
  have h3 := h 3 (by decide)
  have heval : fetch_rss_async resp = ([10, 20, 40], []) := by
    norm_num [fetch_rss_async, fetch_rss_go, h0, h1, h2, h3, max_retries,
      rate_limit_delay]
  exact ⟨hmono, heval, by rw [heval]; norm_num [List.chain'_cons]⟩

/-- Witness for C4: the constant rate-limited response sequence. -/
theorem C4_backoff_monotone_and_empty_witness :
    (rate_limit_delay 0 < rate_limit_delay 1) ∧
    fetch_rss_async (fun _ => .rateLimited) = ([10, 20, 40], []) :=
  ⟨(C4_backoff_monotone_and_empty (fun _ => .rateLimited) (fun _ _ => rfl)).1 0 1
      (by decide),
   (C4_backoff_monotone_and_empty (fun _ => .rateLimited) (fun _ _ => rfl)).2.1⟩

/-- C5 counterexample: the claim says a missing embedded token makes the
    resolver return the original link unchanged, but when the initial
    fetch redirected out of the news.google.com domain the source
    returns the redirect destination instead (lines 68-71). -/
theorem C5_counterexample :
    decode_google_news_url
      ⟨fun _ => .ok ("https://example.com/real", Node.text "no token here"),
       fun _ => none, fun _ => .error "unused"⟩
      "https://news.google.com/rss/articles/abc" = "https://example.com/real" ∧
    "https://example.com/real" ≠ "https://news.google.com/rss/articles/abc" := by
  decide

/-- C5 (amended): the resolver is a total function that never propagates
    a failure: a raised fetch returns the original link; a missing token
    returns the original link when the fetched final URL is still in the
    obfuscated domain, and that final URL when the redirect already left
    the domain; a failing exchange returns the original link; and a link
    outside the obfuscated domain passes through the scraper guard
    unchanged. -/
theorem C5_resolver_total_fallback (env : DecodeEnv) (url finalUrl : String)
    (page : Node) (token msg : String) :
    (∀ e, env.fetch url = .error e → decode_google_news_url env url = url) ∧
    (env.fetch url = .ok (finalUrl, page) → env.dataP page = none →
      containsSub finalUrl "news.google.com" = true →
      decode_google_news_url env url = url) ∧
    (env.fetch url = .ok (finalUrl, page) → env.dataP page = none →
      containsSub finalUrl "news.google.com" = false →
      decode_google_news_url env url = finalUrl) ∧
    (env.fetch url = .ok (finalUrl, page) → env.dataP page = some token →
      env.exchange token = .error msg →
      decode_google_news_url env url = url) ∧
    (containsSub url "news.google.com" = false → resolve_link env url = url) := by
  refine ⟨?_, ?_, ?_, ?_, ?_⟩ <;> intros <;>
    simp_all [decode_google_news_url, resolve_link]

/-- Witness for C5 at concrete environments: a raised fetch and a
    non-obfuscated link. -/
theorem C5_resolver_total_fallback_witness :
    decode_google_news_url
      ⟨fun _ => .error "connection reset", fun _ => none, fun _ => .error ""⟩
      "https://news.google.com/rss/articles/x" =
      "https://news.google.com/rss/articles/x" ∧
    resolve_link
      ⟨fun _ => .error "connection reset", fun _ => none, fun _ => .error ""⟩
      "https://example.com/a" = "https://example.com/a" :=
  ⟨(C5_resolver_total_fallback
      ⟨fun _ => .error "connection reset", fun _ => none, fun _ => .error ""⟩
      "https://news.google.com/rss/articles/x" "" (.text "") "" "").1
      "connection reset" rfl,
   (C5_resolver_total_fallback
      ⟨fun _ => .error "connection reset", fun _ => none, fun _ => .error ""⟩
      "https://example.com/a" "" (.text "") "" "").2.2.2.2 (by decide)⟩

/-- C6: a 401 or 403 response makes the extractor return exactly the
    triple of empty full text, empty summary, and is_paywall true, for
    every environment, hence independently of the response body and of
    any parsing or extraction oracle. -/
theorem C6_paywall_short_circuit (env : ScrapeEnv) (url : String) (resp : HttpResp)
    (hf : env.fetch (resolve_link env.dec url) = .ok resp)
    (hs : resp.status = 401 ∨ resp.status = 403) :
    scrape_article_content_async env url = some ⟨"", "", true⟩ := by
  rcases hs with h | h <;> norm_num [scrape_article_content_async, hf, h]

/-- Witness for C6: a simulated 403 with a nonempty body and nonempty
    extraction oracles still yields the paywall triple. -/
theorem C6_paywall_short_circuit_witness :
    scrape_article_content_async
      ⟨⟨fun _ => .error "", fun _ => none, fun _ => .error ""⟩,
       fun _ => .ok ⟨403, Node.text "secret body"⟩,
       fun _ => ["a parsed paragraph"], fun _ => "page text"⟩
      "https://example.com/story" = some ⟨"", "", true⟩ :=
  C6_paywall_short_circuit _ _ ⟨403, Node.text "secret body"⟩ rfl (Or.inr rfl)

/-- Membership in a first-occurrence deduplication implies membership in
    the original list. -/
theorem mem_dedupFirst {α : Type} [DecidableEq α] (l : List α) :
    ∀ (seen : List α) (a : α), a ∈ dedupFirst l seen → a ∈ l := by
  induction l with
  | nil =>
    intro seen a h
    simp [dedupFirst] at h
  | cons b rest ih =>
    intro seen a h
    simp only [dedupFirst] at h
    split at h
    · exact List.mem_cons_of_mem _ (ih _ _ h)
    · rcases List.mem_cons.1 h with h | h
      · exact h ▸ List.mem_cons_self _ _
      · exact List.mem_cons_of_mem _ (ih _ _ h)

/-- C8 counterexample: saturation mode does not use a strictly finer
    per-day slice count than standard mode: at a concrete input both
    modes generate exactly six logical slots for the day. -/
theorem C8_counterexample :
    (slots_of_day (search_tasks id "x" ["IN:en"] 1 (fun n => Nat.repr n) true) 0).length = 6 ∧
    (slots_of_day (search_tasks id "x" ["IN:en"] 1 (fun n => Nat.repr n) false) 0).length = 6 ∧
    ¬ ((slots_of_day (search_tasks id "x" ["IN:en"] 1 (fun n => Nat.repr n) false) 0).length <
       (slots_of_day (search_tasks id "x" ["IN:en"] 1 (fun n => Nat.repr n) true) 0).length) := by
  decide

/-- C8 (amended): the query expander partitions the requested day range
    into per-day windows: every generated task carries a slot below six,
    a day index below the requested range, and the after/before bounds of
    its own day; the per-day slot set is the same six slots in
    saturation and standard mode, the modes differing instead in the
    number of query variants, 24 against 4. -/
theorem C8_time_slices (quote : String → String) (keyword : String)
    (target_regions : List String) (days : Nat) (dateStr : Nat → String)
    (saturation_mode : Bool) :
    (∀ t ∈ search_tasks quote keyword target_regions days dateStr saturation_mode,
      t.slot < 6 ∧ t.day < days ∧
      t.startStr = dateStr (t.day + 1) ∧ t.endStr = dateStr t.day) ∧
    (build_queries quote keyword true).length = 24 ∧
    (build_queries quote keyword false).length = 4 ∧
    slots_of_day (search_tasks id "x" ["IN:en"] 1 (fun n => Nat.repr n) true) 0 =
      List.range 6 ∧
    slots_of_day (search_tasks id "x" ["IN:en"] 1 (fun n => Nat.repr n) false) 0 =
      List.range 6 := by
  refine ⟨?_, ?_, ?_, ?_, ?_⟩
  · intro t ht
    simp only [search_tasks, build_search_tasks] at ht
    have ht2 := mem_dedupFirst _ _ _ ht
    simp only [List.mem_flatMap, List.mem_map, List.mem_range] at ht2
    obtain ⟨i, hi, slot, hslot, q, _, r, _, rfl⟩ := ht2
    exact ⟨hslot, hi, rfl, rfl⟩
  · simp [build_queries, saturation_variations]
  · simp [build_queries]
  · decide
  · decide

/-- Witness for C8 at a concrete standard-mode task set. -/
theorem C8_time_slices_witness :
    (⟨0, 3, "x", "IN:en", Nat.repr 1, Nat.repr 0⟩ : SearchTask).slot < 6 ∧
    (⟨0, 3, "x", "IN:en", Nat.repr 1, Nat.repr 0⟩ : SearchTask).day < 1 ∧
    (⟨0, 3, "x", "IN:en", Nat.repr 1, Nat.repr 0⟩ : SearchTask).startStr = Nat.repr (0 + 1) ∧
    (⟨0, 3, "x", "IN:en", Nat.repr 1, Nat.repr 0⟩ : SearchTask).endStr = Nat.repr 0 :=
  (C8_time_slices id "x" ["IN:en"] 1 (fun n => Nat.repr n) false).1
    ⟨0, 3, "x", "IN:en", Nat.repr 1, Nat.repr 0⟩ (by decide)

/-- Document used for the C9 counterexample: a script element whose text
    holds a subscription phrase, followed by plain ungated article
    text. -/
def C9doc : Node :=
  .elem "html" ""
    [.elem "script" "" [.text "subscribe now to get our data feed. "],
     .elem "p" "" [.text "Plain article body text, nothing gated."]]

/-- A 520-character extracted paragraph, long enough to keep the
    secondary length-based paywall check out of the picture. -/
def C9para : String := ⟨List.replicate 520 'z'⟩

/-- Environment for the C9 counterexample: a 200 response carrying
    `C9doc` and a body heuristic that extracts `C9para`. -/
def C9env : ScrapeEnv :=
  ⟨⟨fun _ => .error "unused", fun _ => none, fun _ => .error "unused"⟩,
   fun _ => .ok ⟨200, C9doc⟩,
   fun _ => [C9para],
   fun _ => ""⟩

set_option maxRecDepth 4000 in
/-- C9 counterexample: the claim says the scan runs over the cleaned
    visible text, after non-content markup removal; on this page the
    cleaned text contains no subscription phrase, yet the extractor marks
    the result paywalled, because the source scans the page text before
    the cleaning pass removes the script element. -/
theorem C9_counterexample :
    (scrape_article_content_async C9env "https://example.com/a").map
      ScrapeResult.is_paywall = some true ∧
    spec_paywall_scan C9doc = false := by
  constructor
  · decide
  · decide

/-- C9 (amended): paywall detection scans the first 1000 characters of
    the visible page text taken as downloaded, before the non-content
    markup removal, for the fixed phrase vocabulary; presence of a phrase
    marks the result paywalled regardless of what the body extraction
    yields. -/
theorem C9_paywall_scan_raw (env : ScrapeEnv) (url : String) (resp : HttpResp)
    (hf : env.fetch (resolve_link env.dec url) = .ok resp)
    (hs : resp.status = 200)
    (hk : paywall_scan (strLower resp.doc.getText) = true) :
    (scrape_article_content_async env url).map ScrapeResult.is_paywall = some true := by
  simp only [scrape_article_content_async, hf, hs]
  norm_num
  split <;> exact Or.inr hk

/-- Witness for C9: a page whose visible text opens with a subscription
    phrase is marked paywalled even though nothing is extracted. -/
theorem C9_paywall_scan_raw_witness :
    (scrape_article_content_async
      ⟨⟨fun _ => .error "", fun _ => none, fun _ => .error ""⟩,
       fun _ => .ok ⟨200, Node.text "Subscription required to read this."⟩,
       fun _ => [], fun _ => ""⟩ "https://example.com/b").map
      ScrapeResult.is_paywall = some true :=
  C9_paywall_scan_raw _ _ ⟨200, Node.text "Subscription required to read this."⟩
    rfl rfl (by decide)

/-- C10: when the scrape result for a surviving target is missing or
    carries at most 100 characters of full text (as the 401/403 paywall
    short-circuit triple with its empty full text does), the retrieval
    phase overwrites the record with the fallback message embedding the
    feed description, the feed description as summary, and is_paywall
    False, and that overwritten record is what the phase returns for the
    target. -/
theorem C10_fallback_overwrites (scr : String → Option ScrapeResult)
    (articles : List ArticleRecord) (limit : Option Nat) (a : ArticleRecord)
    (ha : a ∈ dedup_by_link (slice_limit articles limit) [])
    (hr : scr a.link = none ∨ ∃ r, scr a.link = some r ∧ r.full_text.length ≤ 100) :
    enhance_one scr a =
      ⟨a.title, a.description, a.source, a.link, a.published,
        fallback_full_text a.description, a.description, false⟩ ∧
    enhance_one scr a ∈ enhance_articles_async scr articles limit := by
  constructor
  · rcases hr with h | ⟨r, h, hlen⟩
    · simp [enhance_one, h]
    · have h2 : ¬ 100 < r.full_text.length := by omega
      simp [enhance_one, h, h2]
  · simp only [enhance_articles_async]
    exact List.mem_map_of_mem _ ha

/-- Witness for C10: a paywalled article whose extraction returned the
    401/403 short-circuit triple ends the phase with is_paywall False. -/
theorem C10_fallback_overwrites_witness :
    enhance_one (fun _ => some ⟨"", "", true⟩)
      ⟨"T", "The feed description.", "S", "https://site/x", "d"⟩ =
      ⟨"T", "The feed description.", "S", "https://site/x", "d",
       fallback_full_text "The feed description.", "The feed description.", false⟩ ∧
    enhance_one (fun _ => some ⟨"", "", true⟩)
      ⟨"T", "The feed description.", "S", "https://site/x", "d"⟩ ∈
      enhance_articles_async (fun _ => some ⟨"", "", true⟩)
        [⟨"T", "The feed description.", "S", "https://site/x", "d"⟩] none :=
  C10_fallback_overwrites (fun _ => some ⟨"", "", true⟩)
    [⟨"T", "The feed description.", "S", "https://site/x", "d"⟩] none
    ⟨"T", "The feed description.", "S", "https://site/x", "d"⟩ (by decide)
    (Or.inr ⟨⟨"", "", true⟩, rfl, by decide⟩)

end NewsEngine
